import Mathlib

/-!
Verification of the dialogue-editor core of `brackeys-gamejam-2026.1`.

The repository ships two Python source files:

* `tools/dialogue_editor/main_window.py` — the PySide6 editor UI.  It is the
  caller of the dialogue data model (`models.py`) and the YAML codec
  (`yaml_io.py`), which are not part of the shipped sources; where a claim
  depends on those missing modules they are modelled from the specification
  (each such definition carries a doc comment starting `Modelled from the
  spec:`).  Everything defined from `main_window.py` itself is translated
  directly from that file.
* `tools/generate_dialogue_audio.py` — the voice-over generation tool;
  `parse_dtl_file`, `get_preset_for_character` and `process_dialogue_file`
  are embedded below.

Machine floats (Qt scene coordinates) are embedded as `Int`: no claim depends
on coordinate arithmetic, only on coordinates being stored and preserved.
-/

namespace DialogueEditor

/-- The seven node kinds of the dialogue data model (`NodeType` in
`models.py`, listed in §3 of the specification and used throughout
`main_window.py`). -/
inductive NodeType
  | SAY
  | CHOICE
  | SET
  | IF
  | JUMP
  | END
  | SIGNAL
deriving DecidableEq

/-- Presentation position of a node (`NodePosition` / `ui_pos` in the code;
Qt floats embedded as `Int`). -/
structure NodePosition where
  x : Int
  y : Int
deriving DecidableEq

/-- One entry of a CHOICE node's ordered choice list (`ChoiceOption`):
display text plus target node id; `next = ""` means no target yet
(`ChoiceOption(text=text)` in `NodeInspector._add_choice` leaves `next`
at its default). -/
structure ChoiceOption where
  text : String
  next : String := ""
deriving DecidableEq

/-- A dialogue node: a single record holding a type tag plus every payload
field, as in the original design (§3, §9 of the spec: "the data model may
store all fields for simplicity").  Optional successor references are plain
strings with `""` denoting absent, matching the inspector code
(`node.next = self.next_combo.currentText()` always stores a string). -/
structure DialogueNode where
  id : String := ""
  type : NodeType := NodeType.SAY
  speaker : String := ""
  text : String := ""
  next : String := ""
  choices : List ChoiceOption := []
  assignments : List (String × String) := []
  condition : String := ""
  then_node : String := ""
  else_node : String := ""
  jump_target : String := ""
  outcome : String := ""
  signal_name : String := ""
  ui_pos : NodePosition := ⟨0, 0⟩
deriving DecidableEq

/-- A dialogue: insertion-ordered node collection (the Python `dict` of
node id → node is embedded as a list in insertion order), plus the metadata
fields of §3. -/
structure Dialogue where
  id : String
  title : String := ""
  nodes : List DialogueNode := []
  characters : List String := []
  file_path : String := ""
  is_modified : Bool := false
deriving DecidableEq

/-- A project character (id plus display metadata, §3). -/
structure Character where
  id : String
  name : String := ""
  color : String := ""
  portrait : String := ""
deriving DecidableEq

/-- The project registry: root path, dialogues and characters (§3). -/
structure Project where
  root_path : String
  dialogues : List Dialogue := []
  characters : List Character := []
deriving DecidableEq

/-- The ids of a dialogue's nodes, in insertion order (keys of the Python
node dict). -/
def nodeIds (d : Dialogue) : List String :=
  d.nodes.map (fun n => n.id)

/-! ## Node retyping (claim C8)

`NodeInspector._on_type_changed` performs the retype:

    self.current_node.type = self.type_combo.currentData()

Only the `type` tag is assigned; every payload field and the position are
left untouched. -/

/-- Retype a node, exactly as `NodeInspector._on_type_changed` does: assign
the new type tag and nothing else. -/
def retype (n : DialogueNode) (t : NodeType) : DialogueNode :=
  { n with type := t }

/-- C8: retyping a node changes only its type tag; every payload field
(speaker, text, next, choices, assignments, condition, then_node, else_node,
jump_target, outcome, signal_name) and the position are preserved, so
switching a SAY node to CHOICE and back restores the original node —
original text included. -/
theorem retype_preserves_payload (n : DialogueNode) (t : NodeType) :
    (retype n t).type = t ∧
    (retype n t).id = n.id ∧
    (retype n t).speaker = n.speaker ∧
    (retype n t).text = n.text ∧
    (retype n t).next = n.next ∧
    (retype n t).choices = n.choices ∧
    (retype n t).assignments = n.assignments ∧
    (retype n t).condition = n.condition ∧
    (retype n t).then_node = n.then_node ∧
    (retype n t).else_node = n.else_node ∧
    (retype n t).jump_target = n.jump_target ∧
    (retype n t).outcome = n.outcome ∧
    (retype n t).signal_name = n.signal_name ∧
    (retype n t).ui_pos = n.ui_pos ∧
    retype (retype n t) n.type = n := by
  cases n
  simp [retype]

/-! ## Graph renderer connections (claim C3)

`NodeGraphView._create_connections` (main_window.py lines 223–276) iterates
over all nodes of the current dialogue and, for each node and WITHOUT
inspecting the node's `type`, draws a line for: a non-empty `next` whose
target is a displayed node, each choice's non-empty present `next`, a
non-empty present `then_node`, `else_node` and `jump_target`.  `node_items`
holds one graphics item per node of the dialogue, so "target is displayed"
is exactly "target is a node id of the dialogue". -/

/-- Edges drawn for a single node by `_create_connections`, in the code's
order (next, choices, then, else, jump).  `ids` is the key set of
`node_items`, i.e. the dialogue's node ids; Python string truthiness
(`if node.next and ...`) is `!= ""`. -/
def nodeEdges (ids : List String) (n : DialogueNode) : List (String × String) :=
  (if n.next != "" && ids.contains n.next then [(n.id, n.next)] else []) ++
  (n.choices.filterMap fun c =>
    if c.next != "" && ids.contains c.next then some (n.id, c.next) else none) ++
  (if n.then_node != "" && ids.contains n.then_node then [(n.id, n.then_node)] else []) ++
  (if n.else_node != "" && ids.contains n.else_node then [(n.id, n.else_node)] else []) ++
  (if n.jump_target != "" && ids.contains n.jump_target then [(n.id, n.jump_target)] else [])

/-- All connection lines created by `NodeGraphView._create_connections`,
as (source id, target id) pairs in creation order. -/
def createConnections (d : Dialogue) : List (String × String) :=
  d.nodes.flatMap (nodeEdges (nodeIds d))

/-- The pure successor function of spec §4.1: the non-empty successor ids
implied by the node's ACTIVE type (SAY/SET/SIGNAL → next; CHOICE → each
choice's next; IF → then_node, else_node; JUMP → jump_target; END → none). -/
def successors (n : DialogueNode) : List String :=
  match n.type with
  | NodeType.SAY | NodeType.SET | NodeType.SIGNAL =>
      if n.next != "" then [n.next] else []
  | NodeType.CHOICE =>
      n.choices.filterMap fun c => if c.next != "" then some c.next else none
  | NodeType.IF =>
      (if n.then_node != "" then [n.then_node] else []) ++
      (if n.else_node != "" then [n.else_node] else [])
  | NodeType.JUMP =>
      if n.jump_target != "" then [n.jump_target] else []
  | NodeType.END => []

/-- A node with no stale payload: every successor-valued field outside the
node's active type is at its default (empty string / empty choice list). -/
def cleanNode (n : DialogueNode) : Bool :=
  match n.type with
  | NodeType.SAY | NodeType.SET | NodeType.SIGNAL =>
      n.choices.isEmpty && n.then_node == "" && n.else_node == "" && n.jump_target == ""
  | NodeType.CHOICE =>
      n.next == "" && n.then_node == "" && n.else_node == "" && n.jump_target == ""
  | NodeType.IF =>
      n.next == "" && n.choices.isEmpty && n.jump_target == ""
  | NodeType.JUMP =>
      n.next == "" && n.choices.isEmpty && n.then_node == "" && n.else_node == ""
  | NodeType.END =>
      n.next == "" && n.choices.isEmpty && n.then_node == "" && n.else_node == ""
        && n.jump_target == ""

/-- An END node carrying a stale `next` left behind by a retype, plus its
target: the renderer draws an edge for it even though the active type
implies no successor. -/
def staleEndNode : DialogueNode :=
  { id := "A", type := NodeType.END, next := "B" }

/-- The dialogue exhibiting the disagreement between the renderer and the
spec successor function. -/
def staleDialogue : Dialogue :=
  { id := "d", nodes := [staleEndNode, { id := "B", type := NodeType.END }] }

/-- C3 counterexample: the renderer's outgoing-edge set for node "A" (an END
node with a stale `next := "B"`) is {"B"}, while the §4.1 successor set of
the node's active type is empty — so stale fields DO contribute edges and
the two functions differ. -/
theorem create_connections_counterexample :
    ((createConnections staleDialogue).filter
        (fun e => e.1 == "A")).map (fun e => e.2) = ["B"] ∧
    successors staleEndNode = [] ∧
    (["B"] : List String) ≠ [] := by
  refine ⟨by decide, by decide, by decide⟩

/-- Every edge `nodeEdges` emits for `n` has source `n.id`. -/
theorem nodeEdges_source (ids : List String) (n : DialogueNode) :
    ∀ e ∈ nodeEdges ids n, e.1 = n.id := by
  intro e he
  unfold nodeEdges at he
  simp only [List.mem_append, List.mem_filterMap] at he
  rcases he with ((((h | h) | h) | h) | h)
  · split at h <;> simp_all
  · obtain ⟨c, _, hc⟩ := h
    split at hc
    · simp only [Option.some.injEq] at hc
      rw [← hc]
    · exact absurd hc (by simp)
  · split at h <;> simp_all
  · split at h <;> simp_all
  · split at h <;> simp_all

/-- For a clean node, the targets of the renderer's edges are exactly the
§4.1 successor set restricted to targets present in the dialogue. -/
theorem nodeEdges_clean (ids : List String) (n : DialogueNode)
    (hclean : cleanNode n = true) :
    (nodeEdges ids n).map (fun e => e.2) =
      (successors n).filter (fun tgt => ids.contains tgt) := by
  obtain ⟨nid, ntype, nsp, ntx, nnext, nch, nas, ncond, nthen, nelse, njump,
    nout, nsig, npos⟩ := n
  cases ntype <;>
    simp only [cleanNode, nodeEdges, successors, Bool.and_eq_true, beq_iff_eq,
      List.isEmpty_iff] at hclean ⊢
  case SAY =>
    obtain ⟨⟨⟨hch, hth⟩, hel⟩, hj⟩ := hclean
    subst hch hth hel hj
    by_cases hnx : nnext = ""
    · simp [hnx]
    · by_cases hc : nnext ∈ ids <;>
        simp [hnx, hc, List.filter]
  case CHOICE =>
    obtain ⟨⟨⟨hnx, hth⟩, hel⟩, hj⟩ := hclean
    subst hnx hth hel hj
    have hlem : ∀ cs : List ChoiceOption,
        (cs.filterMap (fun c =>
            if c.next != "" && ids.contains c.next then some (nid, c.next)
            else none)).map (fun e => e.2)
          = (cs.filterMap (fun c =>
              if c.next != "" then some c.next else none)).filter
              (fun tgt => ids.contains tgt) := by
      intro cs
      induction cs with
      | nil => simp
      | cons c cs ih =>
        by_cases hcx : c.next = ""
        · simpa [hcx] using ih
        · by_cases hc : c.next ∈ ids
          · simpa [hcx, hc, List.filter] using ih
          · simpa [hcx, hc, List.filter] using ih
    simpa using hlem nch
  case SET =>
    obtain ⟨⟨⟨hch, hth⟩, hel⟩, hj⟩ := hclean
    subst hch hth hel hj
    by_cases hnx : nnext = ""
    · simp [hnx]
    · by_cases hc : nnext ∈ ids <;>
        simp [hnx, hc, List.filter]
  case IF =>
    obtain ⟨⟨hnx, hch⟩, hj⟩ := hclean
    subst hnx hch hj
    by_cases hth : nthen = "" <;> by_cases hel : nelse = ""
    · simp [hth, hel]
    · by_cases hc : nelse ∈ ids <;>
        simp [hth, hel, hc, List.filter]
    · by_cases hc : nthen ∈ ids <;>
        simp [hth, hel, hc, List.filter]
    · by_cases hc1 : nthen ∈ ids <;>
        by_cases hc2 : nelse ∈ ids <;>
        simp [hth, hel, hc1, hc2, List.filter]
  case SIGNAL =>
    obtain ⟨⟨⟨hch, hth⟩, hel⟩, hj⟩ := hclean
    subst hch hth hel hj
    by_cases hnx : nnext = ""
    · simp [hnx]
    · by_cases hc : nnext ∈ ids <;>
        simp [hnx, hc, List.filter]
  case JUMP =>
    obtain ⟨⟨⟨hnx, hch⟩, hth⟩, hel⟩ := hclean
    subst hnx hch hth hel
    by_cases hj : njump = ""
    · simp [hj]
    · by_cases hc : njump ∈ ids <;>
        simp [hj, hc, List.filter]
  case END =>
    obtain ⟨⟨⟨⟨hnx, hch⟩, hth⟩, hel⟩, hj⟩ := hclean
    subst hnx hch hth hel hj
    simp

/-- Under unique node ids, filtering the flat-mapped edge list of a node
list down to sources equal to `n.id` recovers exactly `n`'s own edges. -/
theorem filter_flatMap_nodeEdges (ids : List String) :
    ∀ (l : List DialogueNode) (n : DialogueNode),
      (l.map (fun m => m.id)).Nodup → n ∈ l →
      (l.flatMap (nodeEdges ids)).filter (fun e => e.1 == n.id)
        = nodeEdges ids n := by
  intro l
  induction l with
  | nil => intro n _ hmem; cases hmem
  | cons m rest ih =>
    intro n hnd hmem
    rw [List.flatMap_cons, List.filter_append]
    rcases List.mem_cons.mp hmem with heq | htail
    · subst heq
      have h1 : (nodeEdges ids n).filter (fun e => e.1 == n.id)
          = nodeEdges ids n := by
        rw [List.filter_eq_self]
        intro e he
        simp [nodeEdges_source ids n e he]
      have h2 : (rest.flatMap (nodeEdges ids)).filter
          (fun e => e.1 == n.id) = [] := by
        rw [List.filter_eq_nil_iff]
        intro e he
        obtain ⟨m', hm', hem'⟩ := List.mem_flatMap.mp he
        have hsrc := nodeEdges_source ids m' e hem'
        have hne : m'.id ≠ n.id := fun hid =>
          (List.nodup_cons.mp hnd).1
            (by simpa [hid] using List.mem_map_of_mem (fun x => x.id) hm')
        simp [hsrc, hne]
      rw [h1, h2, List.append_nil]
    · have hmn : m.id ≠ n.id := fun hid =>
        (List.nodup_cons.mp hnd).1
          (by simpa [hid] using List.mem_map_of_mem (fun x => x.id) htail)
      have h1 : (nodeEdges ids m).filter (fun e => e.1 == n.id) = [] := by
        rw [List.filter_eq_nil_iff]
        intro e he
        simp [nodeEdges_source ids m e he, hmn]
      rw [h1, List.nil_append]
      exact ih n (List.nodup_cons.mp hnd).2 htail

/-- C3 amended: the renderer draws, for EVERY node regardless of its active
type, one edge per non-empty successor-valued field (next, each choice's
next, then_node, else_node, jump_target) whose target exists in the
dialogue; consequently, for a node with NO stale fields (and under the
unique-node-id invariant), the targets of the node's rendered edges
coincide with the §4.1 active-type successor set restricted to targets
present in the dialogue.  Stale fields left by a retype DO contribute
edges (see the counterexample). -/
theorem create_connections_clean_agrees (d : Dialogue) (n : DialogueNode)
    (hnodup : (nodeIds d).Nodup) (hmem : n ∈ d.nodes)
    (hclean : cleanNode n = true) :
    ((createConnections d).filter (fun e => e.1 == n.id)).map (fun e => e.2) =
      (successors n).filter (fun tgt => (nodeIds d).contains tgt) := by
  unfold createConnections
  rw [filter_flatMap_nodeEdges (nodeIds d) d.nodes n hnodup hmem]
  exact nodeEdges_clean (nodeIds d) n hclean

/-- A clean SAY node `A` pointing at `B`. -/
def cleanSayNode : DialogueNode :=
  { id := "A", type := NodeType.SAY, next := "B" }

/-- A clean two-node dialogue `A (SAY) → B (END)`. -/
def cleanDialogue : Dialogue :=
  { id := "d", nodes := [cleanSayNode, { id := "B", type := NodeType.END }] }

/-- Concrete instantiation of `create_connections_clean_agrees` on the clean
two-node dialogue `A (SAY, next := "B") → B`. -/
theorem create_connections_clean_agrees_witness :
    ((createConnections cleanDialogue).filter
        (fun e => e.1 == cleanSayNode.id)).map (fun e => e.2) =
      (successors cleanSayNode).filter
        (fun tgt => (nodeIds cleanDialogue).contains tgt) :=
  create_connections_clean_agrees cleanDialogue cleanSayNode
    (by decide) (by decide) (by decide)

/-! ## Graph mutation operations (claims C4, C5)

`Dialogue.add_node` and `Dialogue.remove_node` live in `models.py`, which is
not among the shipped sources; `main_window.py` only calls them
(`_add_node` passes a node constructed WITHOUT an explicit id,
`_delete_selected_node` passes the id of a selected node).  They are
modelled from spec §4.2 below.  The embedding is purely functional: a
failed operation returns `Except.error` and the caller's dialogue value is
untouched by construction. -/

/-- The error taxonomy of spec §7 relevant to graph mutation. -/
inductive EditorError
  | DuplicateIdError
  | NotFoundError
deriving DecidableEq

/-- Length of the longest node id in the dialogue. -/
def maxIdLen (d : Dialogue) : Nat :=
  d.nodes.foldr (fun n m => max n.id.length m) 0

/-- Modelled from the spec: `add_node`'s fresh-id scheme for a node supplied
without an explicit id (§4.2 allows any deterministic uniquely-fresh
scheme).  The generated id is one character longer than every existing id,
hence distinct from all of them. -/
def freshId (d : Dialogue) : String :=
  String.mk (List.replicate (maxIdLen d + 1) 'n')

/-- Every node id of the dialogue is at most `maxIdLen` long. -/
theorem id_length_le_maxIdLen (d : Dialogue) :
    ∀ n ∈ d.nodes, n.id.length ≤ maxIdLen d := by
  unfold maxIdLen
  induction d.nodes with
  | nil => intro n h; cases h
  | cons m rest ih =>
    intro n h
    rcases List.mem_cons.mp h with heq | htail
    · subst heq
      exact le_max_left _ _
    · exact le_trans (ih n htail) (le_max_right _ _)

/-- The fresh id has length `maxIdLen d + 1`. -/
theorem freshId_length (d : Dialogue) : (freshId d).length = maxIdLen d + 1 := by
  unfold freshId
  simp [String.length]

/-- The fresh id differs from every existing node id. -/
theorem freshId_not_used (d : Dialogue) :
    ∀ n ∈ d.nodes, n.id ≠ freshId d := by
  intro n hn heq
  have h1 := id_length_le_maxIdLen d n hn
  rw [heq, freshId_length] at h1
  omega

/-- Modelled from the spec: `Dialogue.add_node` (§4.2): reject a supplied
pre-existing id with `DuplicateIdError`; otherwise append the node (with a
freshly assigned id when none — i.e. the empty string — was supplied),
set `is_modified`, and return the id. -/
def add_node (d : Dialogue) (n : DialogueNode) :
    Except EditorError (Dialogue × String) :=
  if n.id != "" then
    if d.nodes.any (fun m => m.id == n.id) then
      Except.error EditorError.DuplicateIdError
    else
      Except.ok ({ d with nodes := d.nodes ++ [n], is_modified := true }, n.id)
  else
    Except.ok
      ({ d with nodes := d.nodes ++ [{ n with id := freshId d }], is_modified := true },
       freshId d)

/-- Modelled from the spec: `Dialogue.remove_node` (§4.2): fail with
`NotFoundError` when the id is absent; otherwise drop exactly that node,
rewriting nothing else (dangling references are deliberately left behind),
and set `is_modified` (§3: the flag is set by any mutation). -/
def remove_node (d : Dialogue) (nid : String) : Except EditorError Dialogue :=
  if d.nodes.any (fun n => n.id == nid) then
    Except.ok
      { d with nodes := d.nodes.filter (fun n => n.id != nid), is_modified := true }
  else
    Except.error EditorError.NotFoundError

/-- C4: adding a node whose explicit id is already present fails with
`DuplicateIdError` (and, the embedding being functional, produces no new
graph — the node set is unchanged); adding a node without an id succeeds,
appends exactly one node under a fresh id not present in the graph, and
sets `is_modified`. -/
theorem add_node_spec (d : Dialogue) (n : DialogueNode) :
    (n.id ≠ "" → d.nodes.any (fun m => m.id == n.id) = true →
      add_node d n = Except.error EditorError.DuplicateIdError) ∧
    (n.id = "" → ∃ d' i,
      add_node d n = Except.ok (d', i) ∧
      d.nodes.all (fun m => m.id != i) = true ∧
      d'.is_modified = true ∧
      d'.nodes.length = d.nodes.length + 1 ∧
      d'.nodes = d.nodes ++ [{ n with id := i }]) := by
  constructor
  · intro hne hdup
    have hb : (n.id != "") = true := by
      rw [bne_iff_ne]
      exact hne
    unfold add_node
    rw [if_pos hb, if_pos hdup]
  · intro hid
    have hb : ¬ ((n.id != "") = true) := by
      rw [bne_iff_ne]
      simp [hid]
    have heq : add_node d n = Except.ok
        ({ d with
            nodes := d.nodes ++ [{ n with id := freshId d }],
            is_modified := true },
         freshId d) := by
      unfold add_node
      rw [if_neg hb]
    refine ⟨_, _, heq, ?_, rfl, by simp, rfl⟩
    rw [List.all_eq_true]
    intro m hm
    simpa using freshId_not_used d m hm

/-- Concrete instantiation of `add_node_spec`: re-adding id "A" to a graph
already containing it fails with `DuplicateIdError`, and adding an id-less
SAY node to the same graph succeeds with a fresh id and the modified flag
set. -/
theorem add_node_spec_witness :
    add_node cleanDialogue { cleanSayNode with id := "A" }
        = Except.error EditorError.DuplicateIdError ∧
    ∃ d' i,
      add_node cleanDialogue { cleanSayNode with id := "" } = Except.ok (d', i) ∧
      cleanDialogue.nodes.all (fun m => m.id != i) = true ∧
      d'.is_modified = true ∧
      d'.nodes.length = cleanDialogue.nodes.length + 1 ∧
      d'.nodes = cleanDialogue.nodes ++ [{ cleanSayNode with id := i }] :=
  ⟨(add_node_spec cleanDialogue { cleanSayNode with id := "A" }).1
      (by decide) (by decide),
   (add_node_spec cleanDialogue { cleanSayNode with id := "" }).2 rfl⟩

/-- C5: removing an absent id fails with `NotFoundError`; a successful
removal drops exactly the nodes bearing that id and keeps every other node
as the very same value — all its fields, successor references included,
byte-for-byte unchanged.  Dangling references left in other nodes are not
rewritten (they are validation's concern, per §4.2). -/
theorem remove_node_spec (d : Dialogue) (nid : String) :
    (d.nodes.any (fun n => n.id == nid) = false →
      remove_node d nid = Except.error EditorError.NotFoundError) ∧
    (∀ d', remove_node d nid = Except.ok d' →
      d'.is_modified = true ∧
      ∀ m : DialogueNode, m ∈ d'.nodes ↔ (m ∈ d.nodes ∧ m.id ≠ nid)) := by
  constructor
  · intro habs
    unfold remove_node
    rw [if_neg (by simp [habs])]
  · intro d' hok
    unfold remove_node at hok
    split at hok
    · cases hok
      refine ⟨rfl, ?_⟩
      intro m
      constructor
      · intro hm
        have := List.mem_filter.mp hm
        exact ⟨this.1, by simpa using this.2⟩
      · intro ⟨hm, hne⟩
        exact List.mem_filter.mpr ⟨hm, by simpa using hne⟩
    · cases hok

/-- Concrete instantiation of `remove_node_spec`: in `A (next := "B") → B`,
removing "B" succeeds; node `A` survives as the identical value — in
particular `A.next` still literally equals `"B"` — while removing the
absent id "C" fails with `NotFoundError`. -/
theorem remove_node_spec_witness :
    remove_node cleanDialogue "C" = Except.error EditorError.NotFoundError ∧
    ∃ d', remove_node cleanDialogue "B" = Except.ok d' ∧
      cleanSayNode ∈ d'.nodes ∧ cleanSayNode.next = "B" :=
  ⟨(remove_node_spec cleanDialogue "C").1 (by decide),
   ⟨{ cleanDialogue with nodes := [cleanSayNode], is_modified := true },
    by rfl,
    (((remove_node_spec cleanDialogue "B").2 _ (by rfl)).2
        cleanSayNode).mpr ⟨by decide, by decide⟩,
    rfl⟩⟩

/-! ## Validation engine (claim C2)

`Dialogue.validate` lives in `models.py`, which is not among the shipped
sources (`main_window.py` only calls it in `_validate_current`); it is
modelled from spec §4.3 below: the five checks in their specified order,
each diagnostic carrying a severity, the offending node's id and a
human-readable message.  The embedding is a pure total function: it cannot
mutate its arguments and cannot throw. -/

/-- Diagnostic severity (§4.3): error or warning. -/
inductive Severity
  | error
  | warning
deriving DecidableEq

/-- One validation diagnostic: severity, offending node id, message (§6:
each diagnostic = severity, node_id, message). -/
structure Diagnostic where
  severity : Severity
  node_id : String
  message : String
deriving DecidableEq

/-- The character ids a speaker may reference: the dialogue's own set plus
the project's (§4.3 check 2: "the dialogue's/project's character set"). -/
def knownSpeakers (d : Dialogue) (p : Project) : List String :=
  d.characters ++ p.characters.map (fun c => c.id)

/-- Modelled from the spec: resolution of a cross-dialogue JUMP target of
the form `<dialogue_id>/<node_id>` against the project (§3 invariants). -/
def crossResolves (p : Project) (tgt : String) : Bool :=
  match tgt.splitOn "/" with
  | [did, nid] =>
      p.dialogues.any (fun dlg => dlg.id == did && dlg.nodes.any (fun n => n.id == nid))
  | _ => false

/-- Does a successor reference of node `n` resolve: an existing node of the
same dialogue or, for JUMP nodes only, a resolvable cross-dialogue target
(§4.3 check 1)? -/
def resolves (d : Dialogue) (p : Project) (n : DialogueNode) (tgt : String) : Bool :=
  d.nodes.any (fun m => m.id == tgt) ||
    (n.type == NodeType.JUMP && crossResolves p tgt)

/-- Check 1 of §4.3: every successor id produced by the §4.1 successor
function must resolve; unresolvable → error. -/
def danglingCheck (d : Dialogue) (p : Project) : List Diagnostic :=
  d.nodes.flatMap fun n =>
    (successors n).filterMap fun tgt =>
      if resolves d p n tgt then none
      else some ⟨Severity.error, n.id, "dangling reference to " ++ tgt⟩

/-- Check 2 of §4.3: SAY node with a non-empty speaker outside the known
character set → warning. -/
def speakerCheck (d : Dialogue) (p : Project) : List Diagnostic :=
  d.nodes.filterMap fun n =>
    if n.type == NodeType.SAY && n.speaker != ""
        && !((knownSpeakers d p).contains n.speaker) then
      some ⟨Severity.warning, n.id, "unknown speaker " ++ n.speaker⟩
    else none

/-- One round of reachability expansion: add the successors of every
already-reached node. -/
def expandReach (d : Dialogue) (acc : List String) : List String :=
  d.nodes.foldl
    (fun acc2 n =>
      if acc2.contains n.id then
        (successors n).foldl
          (fun acc3 tgt => if acc3.contains tgt then acc3 else acc3 ++ [tgt]) acc2
      else acc2)
    acc

/-- Iterated expansion. -/
def iterReach (d : Dialogue) : Nat → List String → List String
  | 0, acc => acc
  | k + 1, acc => iterReach d k (expandReach d acc)

/-- Ids reachable from the entry node (first node in insertion order,
§4.3 check 3), via the §4.1 successor function; `d.nodes.length` expansion
rounds reach a fixpoint of the finite graph. -/
def reachableIds (d : Dialogue) : List String :=
  match d.nodes with
  | [] => []
  | n0 :: _ => iterReach d d.nodes.length [n0.id]

/-- Check 3 of §4.3: nodes not reached from the entry → warning. -/
def unreachableCheck (d : Dialogue) : List Diagnostic :=
  d.nodes.filterMap fun n =>
    if (reachableIds d).contains n.id then none
    else some ⟨Severity.warning, n.id, "unreachable node " ++ n.id⟩

/-- Check 4 of §4.3: no reachable END node → warning (reported against the
entry node). -/
def terminalCheck (d : Dialogue) : List Diagnostic :=
  match d.nodes with
  | [] => []
  | n0 :: _ =>
      if d.nodes.any (fun n => n.type == NodeType.END
          && (reachableIds d).contains n.id) then []
      else [⟨Severity.warning, n0.id, "no END node is reachable from the entry"⟩]

/-- Check 5 of §4.3: direct self-loop (`next == id`, or both IF branches
equal to the node's own id) → error. -/
def selfLoop (n : DialogueNode) : Bool :=
  match n.type with
  | NodeType.SAY | NodeType.SET | NodeType.SIGNAL => n.next == n.id
  | NodeType.IF => n.then_node == n.id && n.else_node == n.id
  | _ => false

/-- Self-loop diagnostics. -/
def selfLoopCheck (d : Dialogue) : List Diagnostic :=
  d.nodes.filterMap fun n =>
    if selfLoop n then
      some ⟨Severity.error, n.id, "self-loop without progression at " ++ n.id⟩
    else none

/-- Modelled from the spec: `validate(dialogue, project)` (§4.3) — the five
checks, concatenated in their specified order. -/
def validate (d : Dialogue) (p : Project) : List Diagnostic :=
  danglingCheck d p ++ speakerCheck d p ++ unreachableCheck d
    ++ terminalCheck d ++ selfLoopCheck d

/-- Every dangling diagnostic names a node of the dialogue. -/
theorem danglingCheck_refs (d : Dialogue) (p : Project) :
    ∀ g ∈ danglingCheck d p, ∃ n ∈ d.nodes, g.node_id = n.id := by
  intro g hg
  unfold danglingCheck at hg
  obtain ⟨n, hn, hgn⟩ := List.mem_flatMap.mp hg
  obtain ⟨tgt, _, htgt⟩ := List.mem_filterMap.mp hgn
  refine ⟨n, hn, ?_⟩
  split at htgt
  · exact absurd htgt (by simp)
  · simp only [Option.some.injEq] at htgt
    rw [← htgt]

/-- Every speaker diagnostic names a node of the dialogue. -/
theorem speakerCheck_refs (d : Dialogue) (p : Project) :
    ∀ g ∈ speakerCheck d p, ∃ n ∈ d.nodes, g.node_id = n.id := by
  intro g hg
  unfold speakerCheck at hg
  obtain ⟨n, hn, hgn⟩ := List.mem_filterMap.mp hg
  refine ⟨n, hn, ?_⟩
  split at hgn
  · simp only [Option.some.injEq] at hgn
    rw [← hgn]
  · exact absurd hgn (by simp)

/-- Every unreachable diagnostic names a node of the dialogue. -/
theorem unreachableCheck_refs (d : Dialogue) :
    ∀ g ∈ unreachableCheck d, ∃ n ∈ d.nodes, g.node_id = n.id := by
  intro g hg
  unfold unreachableCheck at hg
  obtain ⟨n, hn, hgn⟩ := List.mem_filterMap.mp hg
  refine ⟨n, hn, ?_⟩
  split at hgn
  · exact absurd hgn (by simp)
  · simp only [Option.some.injEq] at hgn
    rw [← hgn]

/-- Every terminal-check diagnostic names a node of the dialogue. -/
theorem terminalCheck_refs (d : Dialogue) :
    ∀ g ∈ terminalCheck d, ∃ n ∈ d.nodes, g.node_id = n.id := by
  intro g hg
  unfold terminalCheck at hg
  split at hg
  · cases hg
  · rename_i n0 rest heq
    split at hg
    · cases hg
    · simp only [List.mem_singleton] at hg
      exact ⟨n0, by rw [heq]; exact List.mem_cons_self n0 rest, by rw [hg]⟩

/-- Every self-loop diagnostic names a node of the dialogue. -/
theorem selfLoopCheck_refs (d : Dialogue) :
    ∀ g ∈ selfLoopCheck d, ∃ n ∈ d.nodes, g.node_id = n.id := by
  intro g hg
  unfold selfLoopCheck at hg
  obtain ⟨n, hn, hgn⟩ := List.mem_filterMap.mp hg
  refine ⟨n, hn, ?_⟩
  split at hgn
  · simp only [Option.some.injEq] at hgn
    rw [← hgn]
  · exact absurd hgn (by simp)

/-- C2: `validate` is a pure total function of the dialogue and project —
by construction it cannot mutate its arguments and cannot throw, always
returning an ordered (possibly empty) diagnostic list — and every
diagnostic it returns carries a severity, a message, and the id of an
offending node that belongs to the dialogue. -/
theorem validate_diagnostics_reference_nodes (d : Dialogue) (p : Project) :
    (validate d p).all
      (fun g => d.nodes.any (fun n => n.id == g.node_id)) = true := by
  rw [List.all_eq_true]
  intro g hg
  have hmem : ∃ n ∈ d.nodes, g.node_id = n.id := by
    unfold validate at hg
    simp only [List.mem_append] at hg
    rcases hg with ((((h | h) | h) | h) | h)
    · exact danglingCheck_refs d p g h
    · exact speakerCheck_refs d p g h
    · exact unreachableCheck_refs d g h
    · exact terminalCheck_refs d g h
    · exact selfLoopCheck_refs d g h
  obtain ⟨n, hn, hid⟩ := hmem
  rw [List.any_eq_true]
  exact ⟨n, hn, by simp [hid]⟩

/-! ## Serialization codec (claims C1, C7)

`DialogueYAMLSaver.save_dialogue` and `DialogueYAMLLoader.load_project`
live in `yaml_io.py`, which is not among the shipped sources
(`main_window.py` only calls them in `_save_current` / `_open_project`);
they are modelled from spec §4.4 and §6 below.  A persisted dialogue
document is embedded structurally (`RawDialogue`): per node its `id`, a
textual `type` tag, the position, and the payload fields, where an
optional string-valued field is emitted only when non-empty (`Option
String`, `none` = key absent from the document) — so the empty-vs-absent
distinction of §4.4 is carried by the document type.  Parsing an unknown
type tag raises the per-file `ParseError`, which project loading collects
instead of propagating (§4.4, §7). -/

/-- Per-file codec error (§7). -/
inductive ParseError
  | unknownNodeType (tag : String)
deriving DecidableEq

/-- A persisted choice entry. -/
structure RawChoice where
  text : String
  next : Option String
deriving DecidableEq

/-- A persisted node: `id`, textual `type` tag, `position {x, y}` and the
payload fields of §6; optional successor-valued fields are `Option`s. -/
structure RawNode where
  id : String
  type : String
  x : Int
  y : Int
  speaker : Option String
  text : String
  next : Option String
  choices : List RawChoice
  assignments : List (String × String)
  condition : Option String
  then_node : Option String
  else_node : Option String
  jump_target : Option String
  outcome : Option String
  signal_name : Option String
deriving DecidableEq

/-- A persisted dialogue document (§6): `id`, `title`, characters and the
node list in insertion order. -/
structure RawDialogue where
  id : String
  title : String
  characters : List String
  nodes : List RawNode
deriving DecidableEq

/-- A dialogue document at its file path (what `save_dialogue` writes to
`dialogue.file_path`). -/
structure RawFile where
  path : String
  doc : RawDialogue
deriving DecidableEq

/-- Emit an optional string-valued field: absent when empty. -/
def optField (s : String) : Option String :=
  if s = "" then none else some s

/-- Read an optional field back: absent means empty. -/
theorem optField_getD (s : String) : (optField s).getD "" = s := by
  unfold optField
  split
  · rename_i h
    rw [h]
    rfl
  · rfl

/-- The textual tag of each node type in the persisted document. -/
def typeTag : NodeType → String
  | NodeType.SAY => "say"
  | NodeType.CHOICE => "choice"
  | NodeType.SET => "set"
  | NodeType.IF => "if"
  | NodeType.JUMP => "jump"
  | NodeType.END => "end"
  | NodeType.SIGNAL => "signal"

/-- Parse a type tag; unknown tags are a parse failure. -/
def parseNodeType (tag : String) : Option NodeType :=
  if tag = "say" then some NodeType.SAY
  else if tag = "choice" then some NodeType.CHOICE
  else if tag = "set" then some NodeType.SET
  else if tag = "if" then some NodeType.IF
  else if tag = "jump" then some NodeType.JUMP
  else if tag = "end" then some NodeType.END
  else if tag = "signal" then some NodeType.SIGNAL
  else none

/-- Tag round trip. -/
theorem parseNodeType_typeTag (t : NodeType) : parseNodeType (typeTag t) = some t := by
  cases t <;> rfl

/-- Modelled from the spec: serialization of one node — every payload field
is written (the original single-record design persists the full record), an
optional string field being omitted when empty. -/
def saveNode (n : DialogueNode) : RawNode :=
  { id := n.id,
    type := typeTag n.type,
    x := n.ui_pos.x,
    y := n.ui_pos.y,
    speaker := optField n.speaker,
    text := n.text,
    next := optField n.next,
    choices := n.choices.map (fun c => ⟨c.text, optField c.next⟩),
    assignments := n.assignments,
    condition := optField n.condition,
    then_node := optField n.then_node,
    else_node := optField n.else_node,
    jump_target := optField n.jump_target,
    outcome := optField n.outcome,
    signal_name := optField n.signal_name }

/-- Modelled from the spec: parsing of one persisted node; an unknown type
tag fails with `ParseError.unknownNodeType`. -/
def parseRawNode (r : RawNode) : Except ParseError DialogueNode :=
  match parseNodeType r.type with
  | none => Except.error (ParseError.unknownNodeType r.type)
  | some t =>
      Except.ok
        { id := r.id,
          type := t,
          speaker := r.speaker.getD "",
          text := r.text,
          next := r.next.getD "",
          choices := r.choices.map (fun c => ⟨c.text, c.next.getD ""⟩),
          assignments := r.assignments,
          condition := r.condition.getD "",
          then_node := r.then_node.getD "",
          else_node := r.else_node.getD "",
          jump_target := r.jump_target.getD "",
          outcome := r.outcome.getD "",
          signal_name := r.signal_name.getD "",
          ui_pos := ⟨r.x, r.y⟩ }

/-- Node-level round trip. -/
theorem parseRawNode_saveNode (n : DialogueNode) :
    parseRawNode (saveNode n) = Except.ok n := by
  obtain ⟨nid, ntype, nsp, ntx, nnext, nch, nas, ncond, nthen, nelse, njump,
    nout, nsig, npos⟩ := n
  unfold parseRawNode saveNode
  rw [parseNodeType_typeTag]
  simp only [Except.ok.injEq]
  obtain ⟨px, py⟩ := npos
  simp [optField_getD]
  induction nch with
  | nil => simp
  | cons c cs ih =>
    obtain ⟨ct, cn⟩ := c
    simp [optField_getD, ih]

/-- Parse a list of persisted nodes, failing on the first bad node. -/
def parseRawNodes : List RawNode → Except ParseError (List DialogueNode)
  | [] => Except.ok []
  | r :: rs =>
      match parseRawNode r with
      | Except.error e => Except.error e
      | Except.ok n =>
          match parseRawNodes rs with
          | Except.error e => Except.error e
          | Except.ok ns => Except.ok (n :: ns)

/-- Node-list round trip. -/
theorem parseRawNodes_saveNode (ns : List DialogueNode) :
    parseRawNodes (ns.map saveNode) = Except.ok ns := by
  induction ns with
  | nil => rfl
  | cons n rest ih =>
    simp only [List.map_cons, parseRawNodes, parseRawNode_saveNode, ih]

/-- Modelled from the spec: `DialogueYAMLSaver.save_dialogue` — write the
dialogue's full node set, in insertion order, to `dialogue.file_path`
(§4.4). -/
def save_dialogue (d : Dialogue) : RawFile :=
  { path := d.file_path,
    doc :=
      { id := d.id,
        title := d.title,
        characters := d.characters,
        nodes := d.nodes.map saveNode } }

/-- Modelled from the spec: loading one dialogue document from a file —
the file's path becomes `file_path`, and a freshly loaded dialogue is not
modified. -/
def load_dialogue (path : String) (raw : RawDialogue) : Except ParseError Dialogue :=
  match parseRawNodes raw.nodes with
  | Except.error e => Except.error e
  | Except.ok ns =>
      Except.ok
        { id := raw.id,
          title := raw.title,
          nodes := ns,
          characters := raw.characters,
          file_path := path,
          is_modified := false }

/-- C1: the codec round-trip law of §4.4 and §8 — loading a just-saved
dialogue from its own file path reproduces the dialogue in every field:
id, title, characters, file path, every node in order with its position,
all payload fields (stale ones included), choice-list order, and the
empty-vs-absent convention for optional successor fields (in the data
model optional successors are strings with `""` denoting absent; the saver
omits exactly the empty ones and the loader restores them).  A freshly
saved dialogue compares against its post-save state, whose `is_modified`
flag is clear. -/
theorem save_load_round_trip (d : Dialogue) (hmod : d.is_modified = false) :
    load_dialogue (save_dialogue d).path (save_dialogue d).doc = Except.ok d := by
  obtain ⟨did, dtitle, dnodes, dchars, dpath, dmod⟩ := d
  simp only at hmod
  subst hmod
  unfold load_dialogue save_dialogue
  simp [parseRawNodes_saveNode]

/-- A dialogue exercising all seven node types, stale fields, several
choices and non-trivial positions, used to instantiate the round-trip
law concretely. -/
def richDialogue : Dialogue :=
  { id := "rich",
    title := "Rich Dialogue",
    nodes :=
      [{ id := "n1", type := NodeType.SAY, speaker := "doc", text := "hi",
         next := "n2", jump_target := "stale", ui_pos := ⟨10, 20⟩ },
       { id := "n2", type := NodeType.CHOICE,
         choices := [⟨"yes", "n3"⟩, ⟨"no", "n4"⟩, ⟨"maybe", ""⟩],
         ui_pos := ⟨30, 40⟩ },
       { id := "n3", type := NodeType.SET,
         assignments := [("hp", "3"), ("seen", "true")], next := "n5" },
       { id := "n4", type := NodeType.IF, condition := "hp > 0",
         then_node := "n5", else_node := "" },
       { id := "n5", type := NodeType.JUMP, jump_target := "other/n1" },
       { id := "n6", type := NodeType.SIGNAL, signal_name := "boom",
         next := "n7" },
       { id := "n7", type := NodeType.END, outcome := "won",
         text := "stale text" }],
    characters := ["doc", "nurse"],
    file_path := "rich.yaml",
    is_modified := false }

/-- Concrete instantiation of `save_load_round_trip` on `richDialogue`. -/
theorem save_load_round_trip_witness :
    load_dialogue (save_dialogue richDialogue).path (save_dialogue richDialogue).doc
      = Except.ok richDialogue :=
  save_load_round_trip richDialogue rfl

/-- Modelled from the spec: `DialogueYAMLLoader.load_project` (§4.4) —
scan the directory's dialogue documents, parse each, and collect per-file
errors instead of aborting: the result is the project of successfully
parsed dialogues together with the `(file_path, error)` list. -/
def load_project (root : String) :
    List (String × RawDialogue) → Project × List (String × ParseError)
  | [] => ({ root_path := root }, [])
  | (path, raw) :: rest =>
      let res := load_project root rest
      match load_dialogue path raw with
      | Except.ok d =>
          ({ res.1 with dialogues := d :: res.1.dialogues }, res.2)
      | Except.error e => (res.1, (path, e) :: res.2)

/-- The successfully parsed dialogue of a file, if any. -/
def okPart (path : String) (raw : RawDialogue) : Option Dialogue :=
  match load_dialogue path raw with
  | Except.ok d => some d
  | Except.error _ => none

/-- The parse error of a file, if any. -/
def errPart (path : String) (raw : RawDialogue) : Option (String × ParseError) :=
  match load_dialogue path raw with
  | Except.ok _ => none
  | Except.error e => some (path, e)

/-- C7: project loading never aborts on a malformed file — for every
directory listing, the loaded project contains exactly the well-formed
documents (each parsed dialogue, in order) and the error list contains
exactly one `(file_path, error)` pair per malformed document; in
particular every file accounts for exactly one of the two lists. -/
theorem load_project_collects_errors (root : String)
    (files : List (String × RawDialogue)) :
    (load_project root files).1.dialogues
        = files.filterMap (fun pr => okPart pr.1 pr.2) ∧
    (load_project root files).2
        = files.filterMap (fun pr => errPart pr.1 pr.2) ∧
    (load_project root files).1.dialogues.length
        + (load_project root files).2.length = files.length ∧
    (load_project root files).1.root_path = root := by
  induction files with
  | nil => exact ⟨rfl, rfl, rfl, rfl⟩
  | cons pr rest ih =>
    obtain ⟨path, raw⟩ := pr
    obtain ⟨ih1, ih2, ih3, ih4⟩ := ih
    cases hres : load_dialogue path raw with
    | ok d =>
      have hok : okPart path raw = some d := by simp [okPart, hres]
      have herr : errPart path raw = none := by simp [errPart, hres]
      refine ⟨?_, ?_, ?_, ?_⟩
      · simp only [load_project, hres, List.filterMap_cons, hok, ih1]
      · simp only [load_project, hres, List.filterMap_cons, herr, ih2]
      · simp only [load_project, hres, List.length_cons]
        omega
      · simp only [load_project, hres]
        exact ih4
    | error e =>
      have hok : okPart path raw = none := by simp [okPart, hres]
      have herr : errPart path raw = some (path, e) := by simp [errPart, hres]
      refine ⟨?_, ?_, ?_, ?_⟩
      · simp only [load_project, hres, List.filterMap_cons, hok, ih1]
      · simp only [load_project, hres, List.filterMap_cons, herr, ih2]
      · simp only [load_project, hres, List.length_cons]
        omega
      · simp only [load_project, hres]
        exact ih4

/-- A directory with one well-formed and one malformed document (the
latter has a node with the unrecognized type tag "talk") yields exactly
one loaded dialogue and exactly one parse error. -/
def goodRawDoc : RawDialogue :=
  { id := "good",
    title := "Good",
    characters := [],
    nodes := [{ saveNode cleanSayNode with type := "say" }] }

/-- The malformed document: an unrecognized node type tag. -/
def badRawDoc : RawDialogue :=
  { id := "bad",
    title := "Bad",
    characters := [],
    nodes := [{ saveNode cleanSayNode with type := "talk" }] }

/-- Concrete two-file instantiation of `load_project_collects_errors`: one
good and one bad file load to exactly one dialogue and exactly one
error. -/
theorem load_project_collects_errors_witness :
    (load_project "dir" [("a.yaml", goodRawDoc), ("b.yaml", badRawDoc)]).1.dialogues.length
        = 1 ∧
    (load_project "dir" [("a.yaml", goodRawDoc), ("b.yaml", badRawDoc)]).2
        = [("b.yaml", ParseError.unknownNodeType "talk")] := by
  have h := load_project_collects_errors "dir"
    [("a.yaml", goodRawDoc), ("b.yaml", badRawDoc)]
  refine ⟨?_, ?_⟩
  · rw [h.1]
    rfl
  · rw [h.2.1]
    rfl

/-! ## The `is_modified` lifecycle (claim C6)

The editor mutates the current dialogue through a small set of events,
each translated from `main_window.py`:

* field edit — `NodeInspector._on_field_changed` (lines 459–471): writes
  the current node's `speaker`, `text` and `next` from the widgets and sets
  `dialogue.is_modified = True` (both directly and via the `node_changed`
  signal handled by `_on_node_changed`, line 800);
* retype — `NodeInspector._on_type_changed` (lines 451–457): assigns the
  type and emits `node_changed`, whose handler sets `is_modified = True`;
* move — `NodeGraphicsItem.itemChange` (lines 116–122): writes
  `node.ui_pos.x/y` from the new scene position and does NOT touch
  `is_modified` (no signal is emitted either);
* add node — `DialogueEditorWindow._add_node` (lines 725–738): builds a
  `DialogueNode(type=node_type)` WITHOUT an explicit id at position
  `(len(nodes) * 250, 0)` and calls `add_node`, which sets the flag;
* remove node — `DialogueEditorWindow._delete_selected_node`
  (lines 740–750): calls `remove_node` on a selected (hence existing) node;
* save — `DialogueEditorWindow._save_current` calls
  `DialogueYAMLSaver.save_dialogue`; clearing the flag on a successful save
  is modelled from the spec (§3: cleared only by a successful save), as
  `yaml_io.py` is not among the shipped sources. -/

/-- An editor event acting on the current dialogue. -/
inductive Event
  | fieldEdit (nid speaker text next : String)
  | typeChange (nid : String) (t : NodeType)
  | moveNode (nid : String) (x y : Int)
  | addNode (t : NodeType)
  | removeNode (nid : String)
  | save
deriving DecidableEq

/-- One editor step (see the section comment for the per-event source). -/
def step (d : Dialogue) (e : Event) : Dialogue :=
  match e with
  | Event.fieldEdit nid speaker text next =>
      { d with
          nodes := d.nodes.map (fun n =>
            if n.id == nid then { n with speaker := speaker, text := text, next := next }
            else n),
          is_modified := true }
  | Event.typeChange nid t =>
      { d with
          nodes := d.nodes.map (fun n => if n.id == nid then retype n t else n),
          is_modified := true }
  | Event.moveNode nid x y =>
      { d with
          nodes := d.nodes.map (fun n =>
            if n.id == nid then { n with ui_pos := ⟨x, y⟩ } else n) }
  | Event.addNode t =>
      match add_node d { type := t, ui_pos := ⟨(d.nodes.length : Int) * 250, 0⟩ } with
      | Except.ok (d2, _) => d2
      | Except.error _ => d
  | Event.removeNode nid =>
      match remove_node d nid with
      | Except.ok d2 => d2
      | Except.error _ => d
  | Event.save => { d with is_modified := false }

/-- Run a trace of editor events. -/
def run (d : Dialogue) : List Event → Dialogue
  | [] => d
  | e :: es => run (step d e) es

/-- Does the event mark the dialogue modified (field edit, retype, add,
remove — but neither a node move nor a save)? -/
def dirtying : Event → Bool
  | Event.fieldEdit _ _ _ _ => true
  | Event.typeChange _ _ => true
  | Event.addNode _ => true
  | Event.removeNode _ => true
  | Event.moveNode _ _ _ => false
  | Event.save => false

/-- Is the event a save? -/
def isSave : Event → Bool
  | Event.save => true
  | _ => false

/-- Does the trace contain a save? -/
def hasSave (es : List Event) : Bool :=
  es.any isSave

/-- The suffix of the trace strictly after its last save (the whole trace
when it contains none). -/
def sinceLastSave : List Event → List Event
  | [] => []
  | e :: es =>
      if hasSave es then sinceLastSave es
      else if isSave e then es
      else e :: es

/-- Guard of a single event: a removeNode must target a node that exists
at that point — exactly what the UI guarantees, since
`_delete_selected_node` removes only selected (displayed) nodes. -/
def okGuard (d : Dialogue) : Event → Bool
  | Event.removeNode nid => d.nodes.any (fun n => n.id == nid)
  | _ => true

/-- A trace is well formed for `d` when every event's guard holds at its
point of execution. -/
def okTrace : Dialogue → List Event → Bool
  | _, [] => true
  | d, e :: es => okGuard d e && okTrace (step d e) es

/-- The flag after one well-formed step: save clears it, a move leaves it,
every other event sets it. -/
theorem step_flag (d : Dialogue) (e : Event)
    (hok : okGuard d e = true) :
    (step d e).is_modified
      = (if isSave e then false else d.is_modified || dirtying e) := by
  cases e with
  | fieldEdit nid speaker text next => simp [step, isSave, dirtying]
  | typeChange nid t => simp [step, isSave, dirtying]
  | moveNode nid x y => simp [step, isSave, dirtying]
  | save => simp [step, isSave, dirtying]
  | addNode t =>
      simp only [step, isSave, dirtying, add_node]
      rw [if_neg (by simp)]
      simp
  | removeNode nid =>
      simp only [step, isSave, dirtying, remove_node]
      rw [if_pos (by simpa [okGuard] using hok)]
      simp

/-- The flag after a well-formed trace, in terms of the initial flag. -/
theorem run_flag : ∀ (es : List Event) (d : Dialogue), okTrace d es = true →
    (run d es).is_modified
      = (if hasSave es then (sinceLastSave es).any dirtying
         else d.is_modified || es.any dirtying) := by
  intro es
  induction es with
  | nil =>
    intro d _
    simp [run, hasSave, sinceLastSave]
  | cons e rest ih =>
    intro d hok
    obtain ⟨hok1, hok2⟩ : okGuard d e = true ∧ okTrace (step d e) rest = true := by
      simpa [okTrace] using hok
    have hstep := step_flag d e hok1
    have hrun : run d (e :: rest) = run (step d e) rest := rfl
    rw [hrun, ih (step d e) hok2]
    by_cases hs : hasSave rest
    · have h1 : hasSave (e :: rest) = true := by
        simp [hasSave] at hs ⊢
        exact Or.inr hs
      rw [if_pos hs, if_pos h1]
      have h2 : sinceLastSave (e :: rest) = sinceLastSave rest := by
        simp [sinceLastSave, hs]
      rw [h2]
    · rw [if_neg hs]
      cases e with
      | save =>
        have h1 : hasSave (Event.save :: rest) = true := by simp [hasSave, isSave]
        rw [if_pos h1, hstep]
        have h2 : sinceLastSave (Event.save :: rest) = rest := by
          simp [sinceLastSave, hs, isSave]
        rw [h2]
        simp [isSave]
      | moveNode nid x y =>
        have h1 : hasSave (Event.moveNode nid x y :: rest) = false := by
          simpa [hasSave, isSave] using (by simpa [hasSave] using hs)
        rw [if_neg (by simp [h1]), hstep]
        simp [isSave, dirtying]
      | fieldEdit nid speaker text next =>
        have h1 : hasSave (Event.fieldEdit nid speaker text next :: rest) = false := by
          simpa [hasSave, isSave] using (by simpa [hasSave] using hs)
        rw [if_neg (by simp [h1]), hstep]
        simp [isSave, dirtying]
      | typeChange nid t =>
        have h1 : hasSave (Event.typeChange nid t :: rest) = false := by
          simpa [hasSave, isSave] using (by simpa [hasSave] using hs)
        rw [if_neg (by simp [h1]), hstep]
        simp [isSave, dirtying]
      | addNode t =>
        have h1 : hasSave (Event.addNode t :: rest) = false := by
          simpa [hasSave, isSave] using (by simpa [hasSave] using hs)
        rw [if_neg (by simp [h1]), hstep]
        simp [isSave, dirtying]
      | removeNode nid =>
        have h1 : hasSave (Event.removeNode nid :: rest) = false := by
          simpa [hasSave, isSave] using (by simpa [hasSave] using hs)
        rw [if_neg (by simp [h1]), hstep]
        simp [isSave, dirtying]

/-- A trace without a save keeps its full suffix. -/
theorem sinceLastSave_of_no_save :
    ∀ es : List Event, hasSave es = false → sinceLastSave es = es := by
  intro es
  induction es with
  | nil => intro _; rfl
  | cons e rest ih =>
    intro h
    have hsplit : isSave e = false ∧ rest.any isSave = false := by
      simpa [hasSave] using h
    have h2 : hasSave rest = false := by
      simpa [hasSave] using hsplit.2
    simp [sinceLastSave, hsplit.1, h2]

/-- C6 amended: starting from a freshly loaded dialogue (`is_modified =
false`), after any well-formed editor trace the `is_modified` flag is true
iff a dirtying event — a field edit, retype, node add or node remove, but
NOT a pure node move — occurred since the last save; moving a node mutates
its stored position without marking the dialogue modified (see the
counterexample), and only a save clears the flag. -/
theorem is_modified_tracks_dirtying (d : Dialogue) (es : List Event)
    (hok : okTrace d es = true) (hinit : d.is_modified = false) :
    (run d es).is_modified = (sinceLastSave es).any dirtying := by
  rw [run_flag es d hok]
  by_cases hs : hasSave es
  · rw [if_pos hs]
  · rw [if_neg hs, hinit, sinceLastSave_of_no_save es (by simpa using hs)]
    simp

/-- The freshly loaded one-node dialogue used in the C6 counterexample. -/
def loadedDialogue : Dialogue :=
  { id := "d",
    nodes := [{ id := "A", type := NodeType.SAY }],
    file_path := "d.yaml",
    is_modified := false }

/-- C6 counterexample: moving node "A" mutates the dialogue's stored data
(the node's position changes, so the graph differs from its loaded state —
a mutation since the last load), yet `is_modified` remains false, because
`NodeGraphicsItem.itemChange` updates `ui_pos` without setting the flag.
So "is_modified is true iff at least one graph mutation occurred since the
last successful save or load" fails on the code. -/
theorem is_modified_counterexample :
    run loadedDialogue [Event.moveNode "A" 5 7] ≠ loadedDialogue ∧
    (run loadedDialogue [Event.moveNode "A" 5 7]).is_modified = false := by
  refine ⟨by decide, by decide⟩

/-- Concrete instantiation of `is_modified_tracks_dirtying`: after an edit,
a save and then a move, the flag is clear (the move being the only event
since the save). -/
theorem is_modified_tracks_dirtying_witness :
    (run loadedDialogue
        [Event.fieldEdit "A" "doc" "hello" "", Event.save,
         Event.moveNode "A" 5 7]).is_modified
      = (sinceLastSave
          [Event.fieldEdit "A" "doc" "hello" "", Event.save,
           Event.moveNode "A" 5 7]).any dirtying :=
  is_modified_tracks_dirtying loadedDialogue
    [Event.fieldEdit "A" "doc" "hello" "", Event.save, Event.moveNode "A" 5 7]
    (by decide) (by decide)

end DialogueEditor

namespace AudioTool

/-! ## `tools/generate_dialogue_audio.py`

Embedding of the voice-over generation helpers.  Python `str.lower` is
embedded as `String.toLower`, Python substring membership (`x in y`) as
`strContains`, and the `CHARACTER_PRESETS` dict as an association list in
insertion order. -/

/-- Does the needle occur at the head of the haystack? -/
def charsStartWith : List Char → List Char → Bool
  | _, [] => true
  | [], _ :: _ => false
  | a :: as, b :: bs => a == b && charsStartWith as bs

/-- Does the needle occur anywhere in the haystack? -/
def charsContain : List Char → List Char → Bool
  | [], needle => needle.isEmpty
  | hay@(_ :: rest), needle => charsStartWith hay needle || charsContain rest needle

/-- Python `sub in s` on strings. -/
def strContains (s sub : String) : Bool :=
  charsContain s.toList sub.toList

/-- Python `str.lower`, embedded character-wise (kernel-reducible, unlike
`String.toLower`). -/
def strLower (s : String) : String :=
  String.mk (s.toList.map Char.toLower)

/-- Python dict lookup on an insertion-ordered association list: models both
`key in dict` (result `isSome`) and `dict[key]`. -/
def dictLookup : List (String × String) → String → Option String
  | [], _ => none
  | (k, v) :: rest, key => if k == key then some v else dictLookup rest key

/-- `CHARACTER_PRESETS` — voice presets for character types
(`generate_dialogue_audio.py` lines 34–41). -/
def CHARACTER_PRESETS : List (String × String) :=
  [("default", "male1"),
   ("doctor", "male2"),
   ("nurse", "female1"),
   ("child", "child1"),
   ("old_man", "male4"),
   ("woman", "female2")]

/-- `get_preset_for_character` (lines 99–119): lowercase the name, try a
direct dict lookup, then the fuzzy substring rules, and fall back to the
`"default"` preset. -/
def get_preset_for_character (character : String) : String :=
  match dictLookup CHARACTER_PRESETS (strLower character) with
  | some preset => preset
  | none =>
    if strContains (strLower character) "doctor"
        || strContains (strLower character) "dr" then
      (dictLookup CHARACTER_PRESETS "doctor").getD ""
    else if strContains (strLower character) "nurse" then
      (dictLookup CHARACTER_PRESETS "nurse").getD ""
    else if strContains (strLower character) "child"
        || strContains (strLower character) "kid"
        || strContains (strLower character) "boy"
        || strContains (strLower character) "girl" then
      (dictLookup CHARACTER_PRESETS "child").getD ""
    else if strContains (strLower character) "old"
        || strContains (strLower character) "elder" then
      (dictLookup CHARACTER_PRESETS "old_man").getD ""
    else if strContains (strLower character) "woman"
        || strContains (strLower character) "lady"
        || strContains (strLower character) "female" then
      (dictLookup CHARACTER_PRESETS "woman").getD ""
    else
      (dictLookup CHARACTER_PRESETS "default").getD ""

/-- The six preset values of `CHARACTER_PRESETS`. -/
def presetValues : List String :=
  CHARACTER_PRESETS.map (fun kv => kv.2)

/-- Helper: a successful lookup in a table returns one of its values. -/
theorem dictLookup_mem_values :
    ∀ (table : List (String × String)) (key v : String),
      dictLookup table key = some v → v ∈ table.map (fun kv => kv.2) := by
  intro table
  induction table with
  | nil => intro key v h; simp [dictLookup] at h
  | cons kv rest ih =>
    intro key v h
    by_cases hk : kv.1 == key
    · simp [dictLookup, hk] at h
      simp [← h]
    · simp [dictLookup, hk] at h
      exact List.mem_cons_of_mem _ (ih key v h)

/-- C10: `get_preset_for_character` is total and always returns one of the
six preset values; it is case-insensitive (names equal after lowering give
the same preset); an exact (lowercased) key of `CHARACTER_PRESETS` takes
priority over the fuzzy rules; and when neither an exact key nor any fuzzy
substring rule applies, the result is the `"default"` preset `"male1"`. -/
theorem get_preset_spec (s t : String) :
    (presetValues.contains (get_preset_for_character s) = true) ∧
    (strLower s = strLower t → get_preset_for_character s = get_preset_for_character t) ∧
    (∀ p, dictLookup CHARACTER_PRESETS (strLower s) = some p →
        get_preset_for_character s = p) ∧
    (dictLookup CHARACTER_PRESETS (strLower s) = none →
      (strContains (strLower s) "doctor" || strContains (strLower s) "dr") = false →
      strContains (strLower s) "nurse" = false →
      (strContains (strLower s) "child" || strContains (strLower s) "kid"
        || strContains (strLower s) "boy" || strContains (strLower s) "girl") = false →
      (strContains (strLower s) "old" || strContains (strLower s) "elder") = false →
      (strContains (strLower s) "woman" || strContains (strLower s) "lady"
        || strContains (strLower s) "female") = false →
      get_preset_for_character s = "male1") := by
  refine ⟨?_, ?_, ?_, ?_⟩
  · cases h : dictLookup CHARACTER_PRESETS (strLower s) with
    | some p =>
      have hmem := dictLookup_mem_values CHARACTER_PRESETS (strLower s) p h
      unfold get_preset_for_character
      rw [h]
      show presetValues.contains p = true
      exact List.elem_eq_true_of_mem hmem
    | none =>
      unfold get_preset_for_character
      rw [h]
      show presetValues.contains (if _ then _ else _) = true
      split
      · decide
      split
      · decide
      split
      · decide
      split
      · decide
      split
      · decide
      · decide
  · intro hst
    unfold get_preset_for_character
    rw [hst]
  · intro p hp
    unfold get_preset_for_character
    rw [hp]
  · intro h0 h1 h2 h3 h4 h5
    unfold get_preset_for_character
    rw [h0]
    simp only [h1, h2, h3, h4, h5]
    decide

/-- Concrete instantiation of `get_preset_spec`: "Nurse" resolves (via the
exact lowercase key) to `"female1"`, matching "nurse" case-insensitively,
and an unmatched name falls back to `"male1"`. -/
theorem get_preset_spec_witness :
    presetValues.contains (get_preset_for_character "Nurse") = true ∧
    get_preset_for_character "Nurse" = get_preset_for_character "nurse" ∧
    get_preset_for_character "nurse" = "female1" ∧
    get_preset_for_character "zzz" = "male1" :=
  ⟨(get_preset_spec "Nurse" "nurse").1,
   (get_preset_spec "Nurse" "nurse").2.1 (by decide),
   (get_preset_spec "nurse" "nurse").2.2.1 "female1" (by decide),
   (get_preset_spec "zzz" "zzz").2.2.2 (by decide) (by decide) (by decide)
     (by decide) (by decide) (by decide)⟩

/-! ## `parse_dtl_file` and `process_dialogue_file` (claim C9)

`parse_dtl_file` (lines 44–96) first tries to read the file as JSON
(`{"events": [...]}`); on a JSON decode failure it falls back to a
plain-text format, one candidate event per line.  The embedding
distinguishes the two input shapes up front (`DtlContent`), since either
branch is reached exactly when the content is/is not a JSON events
document.  Python string helpers (`str.strip`, `str.split`,
`str.startswith`, the `^(?:(\w+):\s*)?(.+)$` regex) are embedded
character-wise so that everything kernel-reduces; `\w` and `\s` are taken
in their ASCII reading. -/

/-- One extracted text line: the `{"index", "text", "character"}` dict
built by `parse_dtl_file` (the `event` / `raw_line` bookkeeping entries
are irrelevant to any claim and omitted). -/
structure LineData where
  index : Nat
  text : String
  character : String
deriving DecidableEq

/-- One entry of a Dialogic JSON `events` array; `none` models an absent
key (`"text" in event` is `text.isSome`). -/
structure JsonEvent where
  event_name : String := ""
  text : Option String := none
  character : Option String := none
deriving DecidableEq

/-- A dialogue file's content: a parsed JSON events document, or plain
text handled by the fallback branch. -/
inductive DtlContent
  | jsonEvents (events : List JsonEvent)
  | plainText (content : String)
deriving DecidableEq

/-- Python `enumerate` starting at `i`. -/
def enumFrom {α : Type} (i : Nat) : List α → List (Nat × α)
  | [] => []
  | a :: rest => (i, a) :: enumFrom (i + 1) rest

/-- Python `\s` (ASCII): the whitespace class stripped by `str.strip`. -/
def isPySpace (c : Char) : Bool :=
  c == ' ' || c == '\t' || c == '\n' || c == '\r' || c == '\x0b' || c == '\x0c'

/-- Python `str.strip()` (kernel-reducible). -/
def strTrim (s : String) : String :=
  String.mk (((s.toList.dropWhile isPySpace).reverse.dropWhile isPySpace).reverse)

/-- Python `str.startswith` (kernel-reducible). -/
def strStarts (s pre : String) : Bool :=
  charsStartWith s.toList pre.toList

/-- Split a character list at a separator, Python `str.split(sep)` style
(always at least one piece; `""` splits to `[""]`). -/
def splitOnChar (sep : Char) : List Char → List (List Char)
  | [] => [[]]
  | c :: cs =>
      match splitOnChar sep cs with
      | [] => if c == sep then [[], [c]] else [[c]]
      | r :: rs => if c == sep then [] :: r :: rs else (c :: r) :: rs

/-- Python `content.split("\n")`. -/
def splitNewlines (s : String) : List String :=
  (splitOnChar '\n' s.toList).map String.mk

/-- Python `\w` (ASCII): letters, digits, underscore. -/
def isWordChar (c : Char) : Bool :=
  c.isAlphanum || c == '_'

/-- The regex `^(?:(\w+):\s*)?(.+)$` applied to a stripped line: `some
(name, text)` when the optional speaker group participates (a non-empty
`\w+` prefix, a colon, then after greedy `\s*` a non-empty remainder —
on a stripped line an all-whitespace remainder forces the backtracking
fall-through to the whole-line match, i.e. `none`). -/
def splitSpeaker (line : String) : Option (String × String) :=
  match (line.toList.drop ((line.toList.takeWhile isWordChar).length)) with
  | ':' :: rest =>
      if (line.toList.takeWhile isWordChar).isEmpty then none
      else
        if (rest.dropWhile isPySpace).isEmpty then none
        else some (String.mk (line.toList.takeWhile isWordChar),
                   String.mk (rest.dropWhile isPySpace))
  | _ => none

/-- The `(character, text)` pair the regex produces for a stripped line:
the speaker group's pieces, or `("default", whole line)` when the group
does not participate; the character is lowercased as in line 92. -/
def lineParts (line : String) : String × String :=
  match splitSpeaker line with
  | some (name, text) => (strLower name, text)
  | none => (strLower "default", line)

/-- `parse_dtl_file` (lines 44–96): the JSON branch keeps events that are
text events (by name, or carrying a `text` key) with non-blank text; the
plain-text branch enumerates lines, skips blank/comment lines, and applies
the regex split.  In both branches the stored `index` is the position in
the enumerated source (events array / line number). -/
def parse_dtl_file : DtlContent → List LineData
  | DtlContent.jsonEvents events =>
      (enumFrom 0 events).filterMap fun p =>
        if p.2.event_name == "dialogic_text_event" || p.2.text.isSome then
          if strTrim (p.2.text.getD "") != "" then
            some ⟨p.1, p.2.text.getD "", p.2.character.getD "default"⟩
          else none
        else none
  | DtlContent.plainText content =>
      (enumFrom 0 (splitNewlines content)).filterMap fun p =>
        if strTrim p.2 == "" || strStarts (strTrim p.2) "#"
            || strStarts (strTrim p.2) "//" then none
        else
          if strTrim (lineParts (strTrim p.2)).2 != "" then
            some ⟨p.1, (lineParts (strTrim p.2)).2, (lineParts (strTrim p.2)).1⟩
          else none

/-- `f"{dialogue_name}_{idx:03d}.wav"`. -/
def pad3 (n : Nat) : String :=
  if n < 10 then "00" ++ toString n
  else if n < 100 then "0" ++ toString n
  else toString n

/-- The generated audio file name for a line index. -/
def audioFilename (dialogue_name : String) (idx : Nat) : String :=
  dialogue_name ++ "_" ++ pad3 idx ++ ".wav"

/-- The Godot resource path recorded in the mapping. -/
def resPath (dialogue_name : String) (idx : Nat) : String :=
  "res://sound/dialogues/" ++ dialogue_name ++ "/" ++ audioFilename dialogue_name idx

/-- Python dict assignment `m[k] = v` on an insertion-ordered dict over
`Nat` keys. -/
def dictInsert (m : List (Nat × String)) (k : Nat) (v : String) :
    List (Nat × String) :=
  if m.any (fun kv => kv.1 == k) then
    m.map (fun kv => if kv.1 == k then (k, v) else kv)
  else m ++ [(k, v)]

/-- The externally observable side effects of `process_dialogue_file`:
output-directory creations and `generate_audio` subprocess invocations. -/
structure Effects where
  mkdirCalls : Nat
  subprocessCalls : Nat
deriving DecidableEq

/-- The result dict of `process_dialogue_file`; `mapping = none` models
the early-return dict that carries no `"mapping"` key at all. -/
structure ProcessResult where
  file : String
  lines : Nat
  generated : Nat
  mapping : Option (List (Nat × String))
deriving DecidableEq

/-- The per-line loop of `process_dialogue_file` (lines 167–189),
accumulating `generated`, `audio_mapping` and the side effects; `gen`
models the external `generate_audio` success (text, filename, preset). -/
def processLines (gen : String → String → String → Bool)
    (dialogue_name : String) (dry_run : Bool) :
    List LineData → Nat × List (Nat × String) × Effects
      → Nat × List (Nat × String) × Effects
  | [], acc => acc
  | l :: ls, (generated, mapping, eff) =>
      if dry_run then
        processLines gen dialogue_name dry_run ls
          (generated + 1, dictInsert mapping l.index (resPath dialogue_name l.index), eff)
      else
        if gen l.text (audioFilename dialogue_name l.index)
            (get_preset_for_character l.character) then
          processLines gen dialogue_name dry_run ls
            (generated + 1, dictInsert mapping l.index (resPath dialogue_name l.index),
             { eff with subprocessCalls := eff.subprocessCalls + 1 })
        else
          processLines gen dialogue_name dry_run ls
            (generated, mapping,
             { eff with subprocessCalls := eff.subprocessCalls + 1 })

/-- `process_dialogue_file` (lines 146–196): an empty extraction
early-returns a result without a mapping key; otherwise the output
directory is created unless `dry_run`, and the loop runs (in the source
the loop result is computed once; it is repeated here only syntactically). -/
def process_dialogue_file (gen : String → String → String → Bool)
    (filepath dialogue_name : String) (c : DtlContent) (dry_run : Bool) :
    ProcessResult × Effects :=
  if (parse_dtl_file c).isEmpty then
    ({ file := filepath, lines := 0, generated := 0, mapping := none }, ⟨0, 0⟩)
  else
    ({ file := filepath,
       lines := (parse_dtl_file c).length,
       generated := (processLines gen dialogue_name dry_run (parse_dtl_file c)
         (0, [], if dry_run then ⟨0, 0⟩ else ⟨1, 0⟩)).1,
       mapping := some (processLines gen dialogue_name dry_run (parse_dtl_file c)
         (0, [], if dry_run then ⟨0, 0⟩ else ⟨1, 0⟩)).2.1 },
     (processLines gen dialogue_name dry_run (parse_dtl_file c)
       (0, [], if dry_run then ⟨0, 0⟩ else ⟨1, 0⟩)).2.2)

/-- Indices produced by `enumFrom i` are at least `i`. -/
theorem enumFrom_index_ge {α : Type} (l : List α) :
    ∀ (i : Nat) (p : Nat × α), p ∈ enumFrom i l → i ≤ p.1 := by
  induction l with
  | nil => intro i p h; cases h
  | cons a rest ih =>
    intro i p h
    rcases List.mem_cons.mp h with heq | htail
    · rw [heq]
    · exact Nat.le_of_succ_le (ih (i + 1) p htail)

/-- `enumFrom` indices are strictly increasing. -/
theorem enumFrom_pairwise {α : Type} (l : List α) :
    ∀ i, List.Pairwise (fun p q : Nat × α => p.1 < q.1) (enumFrom i l) := by
  induction l with
  | nil => intro i; exact List.Pairwise.nil
  | cons a rest ih =>
    intro i
    refine List.Pairwise.cons ?_ (ih (i + 1))
    intro q hq
    exact Nat.lt_of_lt_of_le (Nat.lt_succ_self i) (enumFrom_index_ge rest (i + 1) q hq)

/-- A filterMap that preserves the enumeration index preserves strict
index ordering. -/
theorem pairwise_index_filterMap {α : Type} (f : Nat × α → Option LineData)
    (hf : ∀ p l2, f p = some l2 → l2.index = p.1) :
    ∀ l : List (Nat × α),
      List.Pairwise (fun p q : Nat × α => p.1 < q.1) l →
      List.Pairwise (fun a b : LineData => a.index < b.index) (l.filterMap f) := by
  intro l
  induction l with
  | nil => intro _; simp
  | cons p ps ih =>
    intro hp
    obtain ⟨hhead, htail⟩ := List.pairwise_cons.mp hp
    rw [List.filterMap_cons]
    cases hfp : f p with
    | none => exact ih htail
    | some a =>
      refine List.Pairwise.cons ?_ (ih htail)
      intro b hb
      obtain ⟨q, hq, hfq⟩ := List.mem_filterMap.mp hb
      rw [hf p a hfp, hf q b hfq]
      exact hhead q hq

/-- The indices extracted by `parse_dtl_file` are strictly increasing —
in particular pairwise distinct, one per kept source position. -/
theorem parse_dtl_file_pairwise (c : DtlContent) :
    List.Pairwise (fun a b : LineData => a.index < b.index) (parse_dtl_file c) := by
  cases c with
  | jsonEvents events =>
    refine pairwise_index_filterMap _ ?_ _ (enumFrom_pairwise events 0)
    intro p l2 h
    simp only at h
    split at h
    · split at h
      · simp only [Option.some.injEq] at h
        rw [← h]
      · exact absurd h (by simp)
    · exact absurd h (by simp)
  | plainText content =>
    refine pairwise_index_filterMap _ ?_ _ (enumFrom_pairwise (splitNewlines content) 0)
    intro p l2 h
    simp only at h
    split at h
    · exact absurd h (by simp)
    · split at h
      · simp only [Option.some.injEq] at h
        rw [← h]
      · exact absurd h (by simp)

/-- Inserting a key absent from the dict appends. -/
theorem dictInsert_fresh (m : List (Nat × String)) (k : Nat) (v : String)
    (h : ∀ kv ∈ m, kv.1 ≠ k) : dictInsert m k v = m ++ [(k, v)] := by
  unfold dictInsert
  rw [if_neg]
  intro hc
  obtain ⟨kv, hkv, hbeq⟩ := List.any_eq_true.mp hc
  exact h kv hkv (by simpa using hbeq)

/-- The dry-run loop: every line counts as generated and maps its index,
with no side effects. -/
theorem processLines_dry (gen : String → String → String → Bool) (name : String) :
    ∀ (ls : List LineData) (g0 : Nat) (m0 : List (Nat × String)) (eff : Effects),
      (∀ l ∈ ls, ∀ kv ∈ m0, kv.1 ≠ l.index) →
      List.Pairwise (fun a b : LineData => a.index < b.index) ls →
      processLines gen name true ls (g0, m0, eff)
        = (g0 + ls.length,
           m0 ++ ls.map (fun l => (l.index, resPath name l.index)), eff) := by
  intro ls
  induction ls with
  | nil =>
    intro g0 m0 eff _ _
    simp [processLines]
  | cons l ls ih =>
    intro g0 m0 eff hfresh hpw
    obtain ⟨hhead, htail⟩ := List.pairwise_cons.mp hpw
    have hins : dictInsert m0 l.index (resPath name l.index)
        = m0 ++ [(l.index, resPath name l.index)] :=
      dictInsert_fresh m0 l.index (resPath name l.index)
        (fun kv hkv => hfresh l (List.mem_cons_self l ls) kv hkv)
    have hfresh2 : ∀ l2 ∈ ls,
        ∀ kv ∈ m0 ++ [(l.index, resPath name l.index)], kv.1 ≠ l2.index := by
      intro l2 hl2 kv hkv
      rcases List.mem_append.mp hkv with hold | hnew
      · exact hfresh l2 (List.mem_cons_of_mem l hl2) kv hold
      · simp only [List.mem_singleton] at hnew
        rw [hnew]
        exact Nat.ne_of_lt (hhead l2 hl2)
    simp only [processLines, if_pos rfl, hins]
    rw [ih (g0 + 1) (m0 ++ [(l.index, resPath name l.index)]) eff hfresh2 htail]
    have harith : g0 + 1 + ls.length = g0 + (ls.length + 1) := by omega
    rw [harith]
    simp [List.append_assoc]

/-- C9 amended: for every dialogue file from which at least one text line
is extracted, `process_dialogue_file` in dry-run mode reports `generated`
equal to `lines` (the extraction count of `parse_dtl_file`), a `mapping`
with exactly one entry per extracted line keyed by that line's index, and
performs no side effect — neither the audio subprocess nor the output
directory creation.  (When NO line is extracted the early return reports
both counts as zero but omits the `mapping` key entirely — see the
counterexample.) -/
theorem process_dry_run_spec (gen : String → String → String → Bool)
    (filepath name : String) (c : DtlContent)
    (hne : parse_dtl_file c ≠ []) :
    process_dialogue_file gen filepath name c true
      = ({ file := filepath,
           lines := (parse_dtl_file c).length,
           generated := (parse_dtl_file c).length,
           mapping := some ((parse_dtl_file c).map
             (fun l => (l.index, resPath name l.index))) },
         ⟨0, 0⟩) := by
  unfold process_dialogue_file
  rw [if_neg (by simpa [List.isEmpty_iff] using hne)]
  rw [if_pos rfl]
  rw [processLines_dry gen name (parse_dtl_file c) 0 [] ⟨0, 0⟩
    (by intro l _ kv hkv; cases hkv) (parse_dtl_file_pairwise c)]
  simp

/-- Concrete instantiation of `process_dry_run_spec`: a one-line file
"doc: hello" dry-runs to one generated line mapped at index 0, with no
side effects. -/
theorem process_dry_run_spec_witness :
    process_dialogue_file (fun _ _ _ => false) "intro.dtl" "intro"
        (DtlContent.plainText "doc: hello") true
      = ({ file := "intro.dtl", lines := 1, generated := 1,
           mapping := some [(0, "res://sound/dialogues/intro/intro_000.wav")] },
         ⟨0, 0⟩) := by
  rw [process_dry_run_spec (fun _ _ _ => false) "intro.dtl" "intro"
    (DtlContent.plainText "doc: hello") (by decide)]
  rfl

/-- C9 counterexample: a file from which no text line is extracted (a
single comment line) returns, even in dry-run mode, the early dict
`{"file", "lines": 0, "generated": 0}` with NO `mapping` key at all —
so "the 'mapping' dictionary contains exactly one entry per extracted
line" fails (it would require an empty mapping to be present). -/
theorem process_dry_run_empty_counterexample :
    (process_dialogue_file (fun _ _ _ => true) "empty.dtl" "empty"
        (DtlContent.plainText "# placeholder") true).1.mapping = none ∧
    (none : Option (List (Nat × String))) ≠ some [] := by
  refine ⟨by rfl, by decide⟩

end AudioTool
